import Mathlib

/-!
Shallow embedding of the `gzp` zstd format adapter (`src/zstd.rs`) and the
parts of its environment that its contract depends on.

Bytes are modelled as `Nat` values below 256, byte buffers as `List Nat`.
Rust `Result` plus the possibility of a panic (from `.unwrap()`) is modelled
by the three-way outcome type `ROutcome`.
-/

/-- Modelled from the spec: the error taxonomy of §7 (the crate's `GzpError`
type lives outside `src/`): a level that cannot be mapped to the native
domain, a native per-block compression failure, and a finalization failure. -/
inductive GzpError where
  | CodecInitError : GzpError
  | CodecEncodeError : GzpError
  | FinalizeError : GzpError
deriving DecidableEq, Repr

/-- Outcome of a Rust operation: a successful value, a recoverable error
returned as a `Result`, or a process panic (from `.unwrap()` and friends). -/
inductive ROutcome (α : Type) where
  | ok : α → ROutcome α
  | err : GzpError → ROutcome α
  | panicked : ROutcome α
deriving DecidableEq, Repr

/-- `true` exactly on a successful outcome. -/
def ROutcome.isOk {α : Type} : ROutcome α → Bool
  | .ok _ => true
  | _ => false

/-- The `flate2::Compression` level wrapper: a `u32` compression level. -/
structure Compression where
  level : Nat
deriving DecidableEq, Repr

/-- Rust's `TryInto<i32> for u32`: succeeds exactly when the value fits in a
signed 32-bit integer. -/
def u32_to_i32 (n : Nat) : Option Int :=
  if n < 2 ^ 31 then some (Int.ofNat n) else none

/-- Modelled from the spec: the no-op `Check` variant (`PassThroughCheck`,
declared in the crate's `check` module outside `src/`) for formats whose own
container self-validates; it carries no data and serializes to nothing. -/
structure PassThroughCheck where
deriving DecidableEq, Repr

/-- Four-byte little-endian encoding of a block length, used by the modelled
native frame format. -/
def len4 (n : Nat) : List Nat :=
  [n % 256, n / 256 % 256, n / 65536 % 256, n / 16777216 % 256]

/-- Frame byte recording whether a dictionary seeded the compressor. -/
def dictFlag : Option (List Nat) → Nat
  | none => 0
  | some _ => 1

/-- Modelled from the spec: one self-terminating native zstd frame holding one
block. A leading byte records whether a dictionary seeded the compressor (so
dictionary-seeded output differs from plain output), then a 4-byte length,
then the block's bytes. The real entropy coding is out of scope (§1). -/
def zstdFrame (dict : Option (List Nat)) (input : List Nat) : List Nat :=
  dictFlag dict :: (len4 input.length ++ input)

/-- Modelled from the spec: the native `zstd::bulk::Compressor` context, the
state that `create_compressor` builds and `encode` mutates: the active level,
the loaded dictionary, and a flag for a corrupted internal state (the spec's
example cause of a native per-block failure, §7). -/
structure ZstdCompressor where
  level : Int
  dict : Option (List Nat)
  corrupt : Bool
deriving DecidableEq, Repr

/-- Modelled from the spec: `zstd::bulk::Compressor::new` builds a fresh
context at the given level, with no dictionary loaded. -/
def ZstdCompressor.new (level : Int) : ZstdCompressor :=
  { level := level, dict := none, corrupt := false }

/-- Modelled from the spec: the native `set_dictionary(level, dict)` reseeds
the context with the dictionary and the level; it fails on a corrupted
context, surfacing as a recoverable per-block error. -/
def set_dictionary (c : ZstdCompressor) (level : Int) (d : List Nat) :
    Except GzpError ZstdCompressor :=
  if c.corrupt then .error .CodecEncodeError
  else .ok { c with level := level, dict := some d }

/-- Modelled from the spec: the native `set_compression_level(level)` reapplies
the level to the context; it fails on a corrupted context. -/
def set_compression_level (c : ZstdCompressor) (level : Int) :
    Except GzpError ZstdCompressor :=
  if c.corrupt then .error .CodecEncodeError
  else .ok { c with level := level }

/-- Modelled from the spec: the native bulk `compress(input)` emits one
self-terminating frame for the block, shaped by the loaded dictionary; it
fails on a corrupted context. -/
def compressBulk (c : ZstdCompressor) (input : List Nat) :
    Except GzpError (List Nat) :=
  if c.corrupt then .error .CodecEncodeError
  else .ok (zstdFrame c.dict input)

/-- The `Zstd` format marker from `src/zstd.rs`: a fieldless struct. -/
structure Zstd where
deriving DecidableEq, Repr

/-- `Zstd::new` from `src/zstd.rs`: returns the fieldless marker. -/
def Zstd.new : Zstd := {}

/-- `Zstd::create_compressor` from `src/zstd.rs`: converts the `u32` level to
`i32` with `.try_into().unwrap()` (a panic when the conversion fails) and
builds a native bulk compressor at that level. -/
def Zstd.create_compressor (_ : Zstd) (compression_level : Compression) :
    ROutcome ZstdCompressor :=
  match u32_to_i32 compression_level.level with
  | none => .panicked
  | some l => .ok (ZstdCompressor.new l)

/-- `Zstd::needs_dict` from `src/zstd.rs`: always `false`. -/
def Zstd.needs_dict (_ : Zstd) : Bool := false

/-- `Zstd::encode` from `src/zstd.rs`: converts the level with
`.try_into().unwrap()` (panic on failure); then, with a dictionary present,
reseeds the compressor via `set_dictionary`, otherwise reapplies the level via
`set_compression_level`; then compresses the block, propagating every native
error with `?`. The mutated compressor is returned alongside the bytes;
`is_last` is unused by the source. -/
def Zstd.encode (_ : Zstd) (input : List Nat) (encoder : ZstdCompressor)
    (compression_level : Compression) (dict : Option (List Nat))
    (is_last : Bool) : ROutcome (ZstdCompressor × List Nat) :=
  match u32_to_i32 compression_level.level with
  | none => .panicked
  | some l =>
    match (match dict with
           | some d => set_dictionary encoder l d
           | none => set_compression_level encoder l) with
    | .error e => .err e
    | .ok enc2 =>
      match compressBulk enc2 input with
      | .error e => .err e
      | .ok out => .ok (enc2, out)

/-- `Zstd::header` from `src/zstd.rs`: empty for every level. -/
def Zstd.header (_ : Zstd) (_compression_level : Compression) : List Nat := []

/-- `Zstd::footer` from `src/zstd.rs`: empty for every check value. -/
def Zstd.footer (_ : Zstd) (_check : PassThroughCheck) : List Nat := []

/-- Modelled from the spec: the native streaming `zstd::Encoder` wrapping a
sink, whose `finish` flushes and hands the sink back (§4.3, §4.4). -/
structure ZstdStreamEncoder (W : Type) where
  writer : W
deriving DecidableEq, Repr

/-- Modelled from the spec: `zstd::Encoder::finish` returns the inner sink. -/
def ZstdStreamEncoder.finish {W : Type} (e : ZstdStreamEncoder W) :
    Except GzpError W := .ok e.writer

/-- `Zstd::sync_writer` from `src/zstd.rs` (`SyncWriter` impl): converts the
level with `.try_into().unwrap()` (panic on failure) and wraps the sink in a
native streaming encoder, unwrapping its construction too. -/
def Zstd.sync_writer {W : Type} (writer : W) (compression_level : Compression) :
    ROutcome (ZstdStreamEncoder W) :=
  match u32_to_i32 compression_level.level with
  | none => .panicked
  | some _ => .ok { writer := writer }

/-- Modelled from the spec: the synchronous wrapper `SyncZ` (declared in the
crate's `syncz` module outside `src/`) holds its inner encoder in an `Option`
slot that `finish` empties (§9's take-based single-use inner writer). -/
structure SyncZ (E : Type) where
  inner : Option E
deriving DecidableEq, Repr

/-- `ZWriter::finish for SyncZ<Encoder>` from `src/zstd.rs`:
`self.inner.take().unwrap().finish()?`. `take` empties the slot; on an already
emptied slot `unwrap` panics. The updated writer state is returned alongside
the outcome. -/
def SyncZ.finish {W : Type} (s : SyncZ (ZstdStreamEncoder W)) :
    SyncZ (ZstdStreamEncoder W) × ROutcome W :=
  match s.inner with
  | none => (⟨none⟩, .panicked)
  | some e =>
    (⟨none⟩, match e.finish with
             | .ok w => .ok w
             | .error er => .err er)

/-- Modelled from the spec: parsing one native frame after another from a
byte stream, yielding the concatenated original block contents. `fuel` bounds
the number of frames; each frame consumes at least one byte. -/
def decompressLoop : Nat → List Nat → Option (List Nat)
  | _, [] => some []
  | 0, _ :: _ => none
  | fuel + 1, _flag :: rest =>
    match rest with
    | b0 :: b1 :: b2 :: b3 :: body =>
      let n := b0 + 256 * b1 + 65536 * b2 + 16777216 * b3
      if n ≤ body.length then
        match decompressLoop fuel (body.drop n) with
        | none => none
        | some tail => some (body.take n ++ tail)
      else none
    | _ => none

/-- Modelled from the spec: the native zstd decompressor over a whole stream
of concatenated self-terminating frames (§8's `decompress`). -/
def zstd_decompress (l : List Nat) : Option (List Nat) :=
  decompressLoop l.length l

/-- Concatenation of the native frames of a list of (dictionary, block)
pairs, in input order. -/
def framesJoin : List (Option (List Nat) × List Nat) → List Nat
  | [] => []
  | p :: ps => zstdFrame p.1 p.2 ++ framesJoin ps

/-- The compressed bytes `Zstd::encode` hands the engine for one block
compressed without a dictionary (empty on the failure paths). -/
def blockOut (z : Zstd) (p : List Nat × ZstdCompressor × Compression) :
    List Nat :=
  match z.encode p.1 p.2.1 p.2.2 none false with
  | .ok (_, out) => out
  | _ => []

/-- `framesJoin` is the flat concatenation of the individual frames. -/
theorem framesJoin_eq_join_map (ps : List (Option (List Nat) × List Nat)) :
    framesJoin ps = (ps.map (fun p => zstdFrame p.1 p.2)).flatten := by
  induction ps with
  | nil => rfl
  | cons p ps ih => simp [framesJoin, ih]

/-- Parsing a stream of concatenated frames recovers the concatenated block
contents, given enough fuel and blocks that fit the 4-byte length field. -/
theorem decompressLoop_framesJoin :
    ∀ (ps : List (Option (List Nat) × List Nat)) (fuel : Nat),
      (framesJoin ps).length ≤ fuel →
      (∀ p ∈ ps, p.2.length < 4294967296) →
      decompressLoop fuel (framesJoin ps) = some ((ps.map Prod.snd).flatten) := by
  intro ps
  induction ps with
  | nil =>
    intro fuel _ _
    simp [framesJoin, decompressLoop]
  | cons p ps ih =>
    intro fuel hfuel hlen
    obtain ⟨d, b⟩ := p
    have hb : b.length < 4294967296 := hlen ⟨d, b⟩ (List.mem_cons_self _ _)
    have hframes : framesJoin (⟨d, b⟩ :: ps) =
        dictFlag d ::
          b.length % 256 :: b.length / 256 % 256 :: b.length / 65536 % 256 ::
            b.length / 16777216 % 256 :: (b ++ framesJoin ps) := rfl
    have hdec : b.length % 256 + 256 * (b.length / 256 % 256) +
        65536 * (b.length / 65536 % 256) +
        16777216 * (b.length / 16777216 % 256) = b.length := by
      omega
    have hlength : (framesJoin (⟨d, b⟩ :: ps)).length =
        5 + b.length + (framesJoin ps).length := by
      rw [hframes]
      simp
      omega
    cases fuel with
    | zero => omega
    | succ f =>
      rw [hframes]
      simp only [decompressLoop, hdec]
      rw [if_pos (by simp)]
      rw [List.take_left, List.drop_left]
      rw [ih f (by omega) (fun q hq => hlen q (List.mem_cons_of_mem _ hq))]
      simp

/-- With no dictionary, a successful `encode` reapplies the passed level and
emits the frame shaped by the compressor's currently loaded dictionary. -/
theorem encode_none_eq (z : Zstd) (input : List Nat) (c : ZstdCompressor)
    (lvl : Compression) (is_last : Bool) (hl : lvl.level < 2 ^ 31)
    (hc : c.corrupt = false) :
    z.encode input c lvl none is_last =
      .ok ({ c with level := Int.ofNat lvl.level }, zstdFrame c.dict input) := by
  have hl2 : lvl.level < 2147483648 := hl
  simp [Zstd.encode, u32_to_i32, hl2, set_compression_level, compressBulk, hc]

/-- With a dictionary, a successful `encode` reseeds the compressor with it
(and the passed level) and emits the dictionary-shaped frame. -/
theorem encode_some_eq (z : Zstd) (input d : List Nat) (c : ZstdCompressor)
    (lvl : Compression) (is_last : Bool) (hl : lvl.level < 2 ^ 31)
    (hc : c.corrupt = false) :
    z.encode input c lvl (some d) is_last =
      .ok ({ c with level := Int.ofNat lvl.level, dict := some d },
           zstdFrame (some d) input) := by
  have hl2 : lvl.level < 2147483648 := hl
  simp [Zstd.encode, u32_to_i32, hl2, set_dictionary, compressBulk, hc]

/-- On a corrupted native context every branch of `encode` surfaces the native
failure as a returned `CodecEncodeError`. -/
theorem encode_corrupt_eq (z : Zstd) (input : List Nat) (c : ZstdCompressor)
    (lvl : Compression) (dict : Option (List Nat)) (is_last : Bool)
    (hl : lvl.level < 2 ^ 31) (hc : c.corrupt = true) :
    z.encode input c lvl dict is_last = .err .CodecEncodeError := by
  have hl2 : lvl.level < 2147483648 := hl
  cases dict <;>
    simp [Zstd.encode, u32_to_i32, hl2, set_dictionary, set_compression_level,
      compressBulk, hc]

/-- A successful no-dictionary `encode` output is the frame for the block. -/
theorem blockOut_eq (z : Zstd) (p : List Nat × ZstdCompressor × Compression)
    (hl : p.2.2.level < 2 ^ 31) (hc : p.2.1.corrupt = false) :
    blockOut z p = zstdFrame p.2.1.dict p.1 := by
  rw [blockOut, encode_none_eq z p.1 p.2.1 p.2.2 false hl hc]

/-- C2: the claim says an unmappable compression level yields a `CodecInitError`
result rather than a crash, in `create_compressor`, `encode` and `sync_writer`.
The source instead panics: each site converts the `u32` level with
`.try_into().unwrap()`, so the level `2147483648` (which does not fit `i32`)
aborts the process in all three operations instead of returning an error. -/
theorem zstd_level_conversion_panics :
    Zstd.new.create_compressor ⟨2147483648⟩ = ROutcome.panicked ∧
    Zstd.new.encode [] (ZstdCompressor.new 3) ⟨2147483648⟩ none false =
      ROutcome.panicked ∧
    Zstd.sync_writer ([] : List Nat) ⟨2147483648⟩ = ROutcome.panicked := by
  refine ⟨?_, ?_, ?_⟩ <;> decide

/-- C3: the claim says a second `finish` on the synchronous Zstd writer returns
an error rather than panicking. The source runs
`self.inner.take().unwrap().finish()?`: the first call empties the `Option`
slot and succeeds, and the second call panics on `unwrap` of `None` instead of
returning an error (no bytes are emitted twice, but the failure is a crash). -/
theorem syncz_finish_twice_panics :
    (SyncZ.mk (some (ZstdStreamEncoder.mk ([] : List Nat)))).finish.2 =
      ROutcome.ok [] ∧
    ((SyncZ.mk (some (ZstdStreamEncoder.mk ([] : List Nat)))).finish.1).finish.2 =
      ROutcome.panicked := by
  exact ⟨rfl, rfl⟩

/-- C6: for the self-framing Zstd format, `header` is empty for every
compression level and `footer` is empty for every (pass-through) check value;
both are total pure functions. -/
theorem zstd_header_footer_empty :
    ∀ (z : Zstd) (lvl : Compression) (chk : PassThroughCheck),
      z.header lvl = [] ∧ z.footer chk = [] :=
  fun _ _ _ => ⟨rfl, rfl⟩

/-- C7: `Zstd::new` always succeeds and the format is a stateless marker:
every value of the type equals `Zstd.new`, so an instance carries no runtime
data and cannot be distinguished or mutated after construction. -/
theorem zstd_new_stateless : ∀ z : Zstd, z = Zstd.new := fun z => by
  cases z
  rfl

/-- C8: `Zstd::encode` never reads the `is_last` flag, so its result is
identical for `is_last = true` and `is_last = false` at every input,
compressor state, level and optional dictionary. -/
theorem zstd_encode_ignores_is_last :
    ∀ (z : Zstd) (input : List Nat) (c : ZstdCompressor) (lvl : Compression)
      (dict : Option (List Nat)) (b1 b2 : Bool),
      z.encode input c lvl dict b1 = z.encode input c lvl dict b2 :=
  fun _ _ _ _ _ _ _ => rfl

/-- C9: `needs_dict` is `false` for every instance, yet a supplied dictionary
is still honored: `encode` seeds the compressor with it (the returned state
holds the dictionary) and the compressed bytes differ from the
no-dictionary output on a concrete input. -/
theorem zstd_needs_dict_false_dict_honored :
    (∀ z : Zstd, z.needs_dict = false) ∧
    Zstd.new.encode [1, 2, 3] (ZstdCompressor.new 3) ⟨3⟩ (some [9]) false =
      ROutcome.ok (⟨3, some [9], false⟩, zstdFrame (some [9]) [1, 2, 3]) ∧
    Zstd.new.encode [1, 2, 3] (ZstdCompressor.new 3) ⟨3⟩ (some [9]) false ≠
      Zstd.new.encode [1, 2, 3] (ZstdCompressor.new 3) ⟨3⟩ none false := by
  refine ⟨fun _ => rfl, by decide, by decide⟩

/-- C4: whenever the level fits the native domain, `encode` with a dictionary
reseeds the compressor with that dictionary (the returned state carries it and
the frame is dictionary-shaped) before compressing; without a dictionary it
instead reapplies the given level; and a native failure (a corrupted context)
is returned as a `CodecEncodeError` value, never swallowed or aborted. -/
theorem zstd_encode_dict_level_and_errors (input d : List Nat)
    (c : ZstdCompressor) (lvl : Compression) (is_last : Bool)
    (hl : lvl.level < 2 ^ 31) :
    (c.corrupt = false →
      Zstd.new.encode input c lvl (some d) is_last =
        ROutcome.ok ({ c with level := Int.ofNat lvl.level, dict := some d },
          zstdFrame (some d) input) ∧
      Zstd.new.encode input c lvl none is_last =
        ROutcome.ok ({ c with level := Int.ofNat lvl.level },
          zstdFrame c.dict input)) ∧
    (c.corrupt = true →
      Zstd.new.encode input c lvl (some d) is_last =
        ROutcome.err GzpError.CodecEncodeError ∧
      Zstd.new.encode input c lvl none is_last =
        ROutcome.err GzpError.CodecEncodeError) := by
  constructor
  · intro hc
    exact ⟨encode_some_eq Zstd.new input d c lvl is_last hl hc,
           encode_none_eq Zstd.new input c lvl is_last hl hc⟩
  · intro hc
    exact ⟨encode_corrupt_eq Zstd.new input c lvl (some d) is_last hl hc,
           encode_corrupt_eq Zstd.new input c lvl none is_last hl hc⟩

/-- Concrete instantiation of `zstd_encode_dict_level_and_errors`: at level 3
with dictionary `[9]`, `encode` reseeds the fresh level-5 compressor with the
dictionary and emits the dictionary-shaped frame. -/
theorem zstd_encode_dict_level_and_errors_witness :
    (3 : Nat) < 2 ^ 31 ∧
    (ZstdCompressor.new 5).corrupt = false ∧
    Zstd.new.encode [1, 2] (ZstdCompressor.new 5) ⟨3⟩ (some [9]) false =
      ROutcome.ok (⟨Int.ofNat 3, some [9], false⟩, zstdFrame (some [9]) [1, 2]) :=
  ⟨by decide, rfl,
    ((zstd_encode_dict_level_and_errors [1, 2] [9] (ZstdCompressor.new 5) ⟨3⟩
      false (by decide)).1 rfl).1⟩

/-- C10: the output of `encode` does not depend on the level a compressor was
created with: two compressors built by `create_compressor` at different levels
yield identical `encode` results for the same input, level argument and
dictionary argument, because `encode` reapplies the dictionary or level. -/
theorem zstd_encode_level_independent (l1 l2 lvl : Compression)
    (input : List Nat) (dict : Option (List Nat)) (b : Bool)
    (c1 c2 : ZstdCompressor)
    (h1 : Zstd.new.create_compressor l1 = ROutcome.ok c1)
    (h2 : Zstd.new.create_compressor l2 = ROutcome.ok c2) :
    Zstd.new.encode input c1 lvl dict b = Zstd.new.encode input c2 lvl dict b := by
  have hl1 : l1.level < 2147483648 := by
    by_contra h
    have h' : ¬ l1.level < 2147483648 := h
    simp [Zstd.create_compressor, u32_to_i32, h'] at h1
  have hl2 : l2.level < 2147483648 := by
    by_contra h
    have h' : ¬ l2.level < 2147483648 := h
    simp [Zstd.create_compressor, u32_to_i32, h'] at h2
  have e1 : c1 = ZstdCompressor.new (Int.ofNat l1.level) := by
    simp [Zstd.create_compressor, u32_to_i32, hl1] at h1
    exact h1.symm
  have e2 : c2 = ZstdCompressor.new (Int.ofNat l2.level) := by
    simp [Zstd.create_compressor, u32_to_i32, hl2] at h2
    exact h2.symm
  subst e1 e2
  cases hu : u32_to_i32 lvl.level <;> cases dict <;>
    simp [Zstd.encode, hu, set_dictionary, set_compression_level, compressBulk,
      ZstdCompressor.new]

/-- Concrete instantiation of `zstd_encode_level_independent`: compressors
created at levels 1 and 5 produce the same `encode` output at level 3. -/
theorem zstd_encode_level_independent_witness :
    Zstd.new.create_compressor ⟨1⟩ =
      ROutcome.ok (ZstdCompressor.new (Int.ofNat 1)) ∧
    Zstd.new.create_compressor ⟨5⟩ =
      ROutcome.ok (ZstdCompressor.new (Int.ofNat 5)) ∧
    Zstd.new.encode [7] (ZstdCompressor.new (Int.ofNat 1)) ⟨3⟩ none false =
      Zstd.new.encode [7] (ZstdCompressor.new (Int.ofNat 5)) ⟨3⟩ none false :=
  ⟨by decide, by decide,
    zstd_encode_level_independent ⟨1⟩ ⟨5⟩ ⟨3⟩ [7] none false _ _
      (by decide) (by decide)⟩

/-- C1: for the Zstd format, every block compresses successfully and the
engine-side concatenation `header ++ compressed blocks in input order ++
footer` decompresses to exactly the original bytes, for any per-block
compressor states and levels in the native domain. -/
theorem zstd_roundtrip_blocks (lvl0 : Compression) (chk : PassThroughCheck)
    (pairs : List (List Nat × ZstdCompressor × Compression))
    (hlen : ∀ p ∈ pairs, p.1.length < 4294967296)
    (hok : ∀ p ∈ pairs, p.2.1.corrupt = false ∧ p.2.2.level < 2 ^ 31) :
    (∀ p ∈ pairs, (Zstd.new.encode p.1 p.2.1 p.2.2 none false).isOk = true) ∧
    zstd_decompress (Zstd.new.header lvl0 ++
        (pairs.map (blockOut Zstd.new)).flatten ++ Zstd.new.footer chk) =
      some (pairs.map Prod.fst).flatten := by
  constructor
  · intro p hp
    rw [encode_none_eq Zstd.new p.1 p.2.1 p.2.2 false (hok p hp).2 (hok p hp).1]
    rfl
  · have hmap : pairs.map (blockOut Zstd.new) =
        pairs.map (fun p => zstdFrame p.2.1.dict p.1) :=
      List.map_congr_left fun p hp =>
        blockOut_eq Zstd.new p (hok p hp).2 (hok p hp).1
    have hfr : (pairs.map (fun p => zstdFrame p.2.1.dict p.1)).flatten =
        framesJoin (pairs.map (fun p => (p.2.1.dict, p.1))) := by
      rw [framesJoin_eq_join_map]
      simp only [List.map_map]
      rfl
    have hlen2 : ∀ q ∈ pairs.map (fun p => (p.2.1.dict, p.1)),
        q.2.length < 4294967296 := by
      intro q hq
      obtain ⟨p, hp, rfl⟩ := List.mem_map.mp hq
      exact hlen p hp
    have hmain := decompressLoop_framesJoin
      (pairs.map (fun p => (p.2.1.dict, p.1)))
      (framesJoin (pairs.map (fun p => (p.2.1.dict, p.1)))).length le_rfl hlen2
    simp only [Zstd.header, Zstd.footer, List.nil_append, List.append_nil]
    rw [hmap, hfr]
    simp only [zstd_decompress]
    rw [hmain]
    simp only [List.map_map]
    rfl

/-- First line of the documented example input, as bytes. -/
def exampleLine1 : List Nat :=
  [84, 104, 105, 115, 32, 105, 115, 32, 97, 32, 102, 105, 114, 115, 116, 32,
   116, 101, 115, 116, 32, 108, 105, 110, 101, 10]

/-- Second line of the documented example input, as bytes. -/
def exampleLine2 : List Nat :=
  [84, 104, 105, 115, 32, 105, 115, 32, 97, 32, 115, 101, 99, 111, 110, 100,
   32, 116, 101, 115, 116, 32, 108, 105, 110, 101, 10]

/-- The two example lines as two blocks, each with a fresh level-3 compressor. -/
def examplePairs : List (List Nat × ZstdCompressor × Compression) :=
  [(exampleLine1, ZstdCompressor.new 3, ⟨3⟩),
   (exampleLine2, ZstdCompressor.new 3, ⟨3⟩)]

/-- Concrete instantiation of `zstd_roundtrip_blocks` on the documented
two-line example: both blocks compress, and decompressing
`header ++ block1 ++ block2 ++ footer` returns the original bytes. -/
theorem zstd_roundtrip_blocks_witness :
    (∀ p ∈ examplePairs, p.1.length < 4294967296) ∧
    (∀ p ∈ examplePairs, p.2.1.corrupt = false ∧ p.2.2.level < 2 ^ 31) ∧
    (examplePairs.map Prod.fst).flatten = exampleLine1 ++ exampleLine2 ∧
    ((∀ p ∈ examplePairs,
        (Zstd.new.encode p.1 p.2.1 p.2.2 none false).isOk = true) ∧
      zstd_decompress (Zstd.new.header ⟨3⟩ ++
          (examplePairs.map (blockOut Zstd.new)).flatten ++ Zstd.new.footer {}) =
        some (examplePairs.map Prod.fst).flatten) :=
  ⟨by decide, by decide, by decide,
    zstd_roundtrip_blocks ⟨3⟩ {} examplePairs (by decide) (by decide)⟩

/-- C5: compressing a stream as one block and as the caller's chosen partition
both decompress, after reassembly in input order, to the identical original
content. -/
theorem zstd_block_independence (S : List Nat) (parts : List (List Nat))
    (hsplit : parts.flatten = S) (hS : S.length < 4294967296)
    (hparts : ∀ b ∈ parts, b.length < 4294967296)
    (c : ZstdCompressor) (lvl : Compression)
    (hc : c.corrupt = false) (hl : lvl.level < 2 ^ 31) :
    zstd_decompress (blockOut Zstd.new (S, c, lvl)) = some S ∧
    zstd_decompress
        ((parts.map (fun b => blockOut Zstd.new (b, c, lvl))).flatten) =
      some S := by
  constructor
  · rw [blockOut_eq Zstd.new (S, c, lvl) hl hc]
    have hone : zstdFrame c.dict S = framesJoin [(c.dict, S)] := by
      simp [framesJoin]
    rw [hone]
    simp only [zstd_decompress]
    rw [decompressLoop_framesJoin [(c.dict, S)] _ le_rfl (by simpa using hS)]
    simp
  · have hmap : parts.map (fun b => blockOut Zstd.new (b, c, lvl)) =
        parts.map (fun b => zstdFrame c.dict b) :=
      List.map_congr_left fun b _ => blockOut_eq Zstd.new (b, c, lvl) hl hc
    have hfr : (parts.map (fun b => zstdFrame c.dict b)).flatten =
        framesJoin (parts.map (fun b => (c.dict, b))) := by
      rw [framesJoin_eq_join_map]
      simp only [List.map_map]
      rfl
    have hlen2 : ∀ q ∈ parts.map (fun b => (c.dict, b)),
        q.2.length < 4294967296 := by
      intro q hq
      obtain ⟨b, hb, rfl⟩ := List.mem_map.mp hq
      exact hparts b hb
    rw [hmap, hfr]
    simp only [zstd_decompress]
    rw [decompressLoop_framesJoin (parts.map (fun b => (c.dict, b))) _
      le_rfl hlen2]
    rw [← hsplit]
    simp

/-- Concrete instantiation of `zstd_block_independence`: the example input
compressed as one block or as its two lines decompresses to the same bytes. -/
theorem zstd_block_independence_witness :
    ([exampleLine1, exampleLine2] : List (List Nat)).flatten =
      exampleLine1 ++ exampleLine2 ∧
    (exampleLine1 ++ exampleLine2).length < 4294967296 ∧
    (zstd_decompress
        (blockOut Zstd.new (exampleLine1 ++ exampleLine2,
          ZstdCompressor.new 3, ⟨3⟩)) = some (exampleLine1 ++ exampleLine2) ∧
      zstd_decompress
          (([exampleLine1, exampleLine2].map
            (fun b => blockOut Zstd.new (b, ZstdCompressor.new 3, ⟨3⟩))).flatten) =
        some (exampleLine1 ++ exampleLine2)) :=
  ⟨by decide, by decide,
    zstd_block_independence (exampleLine1 ++ exampleLine2)
      [exampleLine1, exampleLine2] (by decide) (by decide) (by decide)
      (ZstdCompressor.new 3) ⟨3⟩ rfl (by decide)⟩
